import Mathlib

/-
Verification of the moltcities rate-limit / edit-gate / snapshot-cache core.

Timestamps are modelled as `Int` seconds (Go `time.Time` at second granularity;
all comparisons in the source are `Before` / `After`, i.e. strict `<` / `>`).
A rate-limit table (`ip_rate_limits` / `user_rate_limits`) is modelled as a
function from the composite primary key to an optional row.
-/

/-- A rate-limit counter row: `count` and `window_start` columns
(schema.sql, tables `ip_rate_limits` / `user_rate_limits`). -/
structure Counter where
  count : Int
  window_start : Int
deriving DecidableEq, Repr

/-- Point update of a keyed table: the SQL `INSERT` / `UPDATE ... WHERE key = ?`
on a table whose primary key is `k`. -/
def rlUpdate {K : Type} [DecidableEq K] (s : K → Option Counter) (k : K) (c : Counter) :
    K → Option Counter :=
  fun q => if q = k then some c else s q

/-- The shared body of `CheckIPRateLimit` and `CheckUserRateLimit`
(internal/db/ratelimit.go); the two functions are textually identical up to
the key type.  `windowStart := now - windowSeconds`; an absent row is inserted
as `(1, now)`; a row with `window_start` strictly before `windowStart` is reset
to `(1, now)` (`dbWindowStart.Before(windowStart)`); a row at the limit
(`count >= limit`) is left untouched and the call is denied; otherwise
`count` is incremented in place.  Returns (allowed, updated table). -/
def checkRateLimit {K : Type} [DecidableEq K] (s : K → Option Counter) (k : K)
    (limit windowSeconds now : Int) : Bool × (K → Option Counter) :=
  let windowStart := now - windowSeconds
  match s k with
  | none => (true, rlUpdate s k ⟨1, now⟩)
  | some c =>
    if c.window_start < windowStart then
      (true, rlUpdate s k ⟨1, now⟩)
    else if limit ≤ c.count then
      (false, s)
    else
      (true, rlUpdate s k ⟨c.count + 1, c.window_start⟩)

/-- `CheckIPRateLimit` (internal/db/ratelimit.go): key is `(ip, action)`. -/
def CheckIPRateLimit (s : String × String → Option Counter) (ip action : String)
    (limit windowSeconds now : Int) : Bool × (String × String → Option Counter) :=
  checkRateLimit s (ip, action) limit windowSeconds now

/-- `CheckUserRateLimit` (internal/db/ratelimit.go): key is `(user_id, action)`. -/
def CheckUserRateLimit (s : Int × String → Option Counter) (userID : Int) (action : String)
    (limit windowSeconds now : Int) : Bool × (Int × String → Option Counter) :=
  checkRateLimit s (userID, action) limit windowSeconds now

/-- A sequence of sequential `tryConsume` calls for the same key, each at its
own timestamp; returns the list of `allowed` results and the final table. -/
def runCalls {K : Type} [DecidableEq K] (s : K → Option Counter) (k : K)
    (limit windowSeconds : Int) : List Int → List Bool × (K → Option Counter)
  | [] => ([], s)
  | t :: ts =>
    let r := checkRateLimit s k limit windowSeconds t
    let rest := runCalls r.2 k limit windowSeconds ts
    (r.1 :: rest.1, rest.2)

theorem CheckIPRateLimit_eq (s : String × String → Option Counter) (ip action : String)
    (limit windowSeconds now : Int) :
    CheckIPRateLimit s ip action limit windowSeconds now =
      checkRateLimit s (ip, action) limit windowSeconds now := rfl

theorem CheckUserRateLimit_eq (s : Int × String → Option Counter) (userID : Int)
    (action : String) (limit windowSeconds now : Int) :
    CheckUserRateLimit s userID action limit windowSeconds now =
      checkRateLimit s (userID, action) limit windowSeconds now := rfl

theorem checkRateLimit_absent {K : Type} [DecidableEq K] (s : K → Option Counter) (k : K)
    (limit windowSeconds now : Int) (h : s k = none) :
    checkRateLimit s k limit windowSeconds now = (true, rlUpdate s k ⟨1, now⟩) := by
  simp [checkRateLimit, h]

theorem checkRateLimit_reset {K : Type} [DecidableEq K] (s : K → Option Counter) (k : K)
    (limit windowSeconds now : Int) (c : Counter) (h : s k = some c)
    (hw : c.window_start < now - windowSeconds) :
    checkRateLimit s k limit windowSeconds now = (true, rlUpdate s k ⟨1, now⟩) := by
  simp [checkRateLimit, h, hw]

theorem checkRateLimit_denied {K : Type} [DecidableEq K] (s : K → Option Counter) (k : K)
    (limit windowSeconds now : Int) (c : Counter) (h : s k = some c)
    (hw : ¬ c.window_start < now - windowSeconds) (hc : limit ≤ c.count) :
    checkRateLimit s k limit windowSeconds now = (false, s) := by
  simp [checkRateLimit, h, hw, hc]

theorem checkRateLimit_increment {K : Type} [DecidableEq K] (s : K → Option Counter) (k : K)
    (limit windowSeconds now : Int) (c : Counter) (h : s k = some c)
    (hw : ¬ c.window_start < now - windowSeconds) (hc : ¬ limit ≤ c.count) :
    checkRateLimit s k limit windowSeconds now =
      (true, rlUpdate s k ⟨c.count + 1, c.window_start⟩) := by
  simp [checkRateLimit, h, hw, hc]

/-- C9: within the window at the limit, the call denies and mutates nothing:
the whole table (this row and every other row) is returned unchanged. -/
theorem c9_denied_no_mutation {K : Type} [DecidableEq K] (s : K → Option Counter) (k : K)
    (limit windowSeconds now : Int) (c : Counter) (h : s k = some c)
    (hw : ¬ c.window_start < now - windowSeconds) (hc : limit ≤ c.count) :
    (checkRateLimit s k limit windowSeconds now).1 = false ∧
      (checkRateLimit s k limit windowSeconds now).2 = s := by
  rw [checkRateLimit_denied s k limit windowSeconds now c h hw hc]
  exact ⟨rfl, rfl⟩

/-- Witness table for the C9 witness: one counter at its limit. -/
def c9Table : String × String → Option Counter :=
  fun q => if q = ("1.2.3.4", "register") then some ⟨2, 0⟩ else none

theorem c9_denied_no_mutation_witness :
    (CheckIPRateLimit c9Table "1.2.3.4" "register" 2 10 5).1 = false ∧
      (CheckIPRateLimit c9Table "1.2.3.4" "register" 2 10 5).2 = c9Table := by
  rw [CheckIPRateLimit_eq]
  exact c9_denied_no_mutation c9Table ("1.2.3.4", "register") 2 10 5 ⟨2, 0⟩
    (by simp [c9Table]) (by decide) (by decide)

/-- Table with one counter `(count = 1, window_start = 0)` for the key
`("1.2.3.4", "register")`: the C2 counterexample store. -/
def c2Table : String × String → Option Counter :=
  fun q => if q = ("1.2.3.4", "register") then some ⟨1, 0⟩ else none

/-- C2 counterexample: at the exact window boundary `now = window_start + W`
(here `now = 10`, `window_start = 0`, `W = 10`, `limit = 1`) the code does NOT
reset: `dbWindowStart.Before(windowStart)` is strict, `0 < 10 - 10` is false,
so the call falls through to the `count >= limit` branch and is denied.  The
claim asserts `allowed = true` with a reset at this input. -/
theorem c2_boundary_counterexample :
    (CheckIPRateLimit c2Table "1.2.3.4" "register" 1 10 10).1 = false ∧
      (CheckIPRateLimit c2Table "1.2.3.4" "register" 1 10 10).2 ("1.2.3.4", "register") =
        some ⟨1, 0⟩ := by
  constructor
  · rfl
  · rfl

/-- C2 (amended): a `tryConsume` call at time `now` with
`now - window_start > W` (strictly past the window, not at the exact boundary)
returns `allowed = true` and hard-resets the counter to
`(count = 1, window_start = now)`. -/
theorem c2_window_reset {K : Type} [DecidableEq K] (s : K → Option Counter) (k : K)
    (limit windowSeconds now : Int) (c : Counter) (h : s k = some c)
    (hw : windowSeconds < now - c.window_start) :
    (checkRateLimit s k limit windowSeconds now).1 = true ∧
      (checkRateLimit s k limit windowSeconds now).2 k = some ⟨1, now⟩ := by
  have hlt : c.window_start < now - windowSeconds := by omega
  rw [checkRateLimit_reset s k limit windowSeconds now c h hlt]
  exact ⟨rfl, by simp [rlUpdate]⟩

theorem c2_window_reset_witness :
    (CheckIPRateLimit c2Table "1.2.3.4" "register" 1 10 11).1 = true ∧
      (CheckIPRateLimit c2Table "1.2.3.4" "register" 1 10 11).2 ("1.2.3.4", "register") =
        some ⟨1, 11⟩ := by
  rw [CheckIPRateLimit_eq]
  exact c2_window_reset c2Table ("1.2.3.4", "register") 1 10 11 ⟨1, 0⟩
    (by simp [c2Table]) (by decide)

/-- Steady state inside one window: with an existing counter `(c, t1)` whose
`window_start` `t1` lies in `[a, a + L]`, `L < W`, every call at a time in
`[a, a + L]` stays inside the window (the strict reset test never fires), so
the i-th further call is allowed iff `c + i < limit`. -/
theorem runCalls_inWindow {K : Type} [DecidableEq K] (k : K) (limit W a L t1 : Int)
    (hL : L < W) (ht1a : a ≤ t1) :
    ∀ (ts : List Int) (s : K → Option Counter) (c : Int),
      (∀ t ∈ ts, a ≤ t ∧ t ≤ a + L) → s k = some ⟨c, t1⟩ →
      (runCalls s k limit W ts).1 =
        (List.range ts.length).map (fun i : Nat => decide (c + (i : Int) < limit)) := by
  intro ts
  induction ts with
  | nil => intro s c _ _; rfl
  | cons t ts ih =>
    intro s c hin hs
    have ht : a ≤ t ∧ t ≤ a + L := hin t (List.mem_cons_self t ts)
    have hin' : ∀ u ∈ ts, a ≤ u ∧ u ≤ a + L := fun u hu => hin u (List.mem_cons_of_mem t hu)
    have hnoreset : ¬ (Counter.mk c t1).window_start < t - W := by
      simp only [Counter.mk.injEq]
      omega
    have hlen : (t :: ts).length = ts.length + 1 := rfl
    rw [hlen, List.range_succ_eq_map, List.map_cons, List.map_map]
    by_cases hc : limit ≤ c
    · have hstep := checkRateLimit_denied s k limit W t ⟨c, t1⟩ hs hnoreset hc
      have hrun : (runCalls s k limit W (t :: ts)).1 =
          false :: (runCalls s k limit W ts).1 := by
        simp [runCalls, hstep]
      rw [hrun, ih s c hin' hs]
      refine List.cons_eq_cons.mpr ⟨?_, ?_⟩
      · symm
        simp only [Nat.cast_zero, decide_eq_false_iff_not]
        omega
      · apply List.map_congr_left
        intro i _
        simp only [Function.comp_apply, decide_eq_decide, Nat.succ_eq_add_one, Nat.cast_add,
          Nat.cast_one]
        omega
    · have hstep := checkRateLimit_increment s k limit W t ⟨c, t1⟩ hs hnoreset hc
      have hupd : (rlUpdate s k ⟨c + 1, t1⟩) k = some ⟨c + 1, t1⟩ := by
        simp [rlUpdate]
      have hrun : (runCalls s k limit W (t :: ts)).1 =
          true :: (runCalls (rlUpdate s k ⟨c + 1, t1⟩) k limit W ts).1 := by
        simp [runCalls, hstep]
      rw [hrun, ih (rlUpdate s k ⟨c + 1, t1⟩) (c + 1) hin' hupd]
      refine List.cons_eq_cons.mpr ⟨?_, ?_⟩
      · symm
        simp only [Nat.cast_zero, decide_eq_true_iff]
        omega
      · apply List.map_congr_left
        intro i _
        simp only [Function.comp_apply, decide_eq_decide, Nat.succ_eq_add_one, Nat.cast_add,
          Nat.cast_one]
        omega

/-- C1: starting from a table with no counter for the key, `N + 1` sequential
`tryConsume` calls (`limit = N ≥ 1`, window `W > 0`) whose times all lie in a
sub-interval `[a, a + L]` of length `L < W` yield `allowed = true` for the
first `N` calls and `allowed = false` for the `(N+1)`-th. -/
theorem c1_exact_window_count {K : Type} [DecidableEq K] (k : K) (N : Nat) (hN : 1 ≤ N)
    (W a L : Int) (hL : L < W) (ts : List Int) (hlen : ts.length = N + 1)
    (hin : ∀ t ∈ ts, a ≤ t ∧ t ≤ a + L) (s : K → Option Counter) (hs : s k = none) :
    (runCalls s k (N : Int) W ts).1 = List.replicate N true ++ [false] := by
  cases ts with
  | nil => simp at hlen
  | cons t0 rest =>
    have ht0 : a ≤ t0 ∧ t0 ≤ a + L := hin t0 (List.mem_cons_self t0 rest)
    have hin' : ∀ u ∈ rest, a ≤ u ∧ u ≤ a + L :=
      fun u hu => hin u (List.mem_cons_of_mem t0 hu)
    have hstep := checkRateLimit_absent s k (N : Int) W t0 hs
    have hupd : (rlUpdate s k ⟨1, t0⟩) k = some ⟨1, t0⟩ := by simp [rlUpdate]
    have hrestlen : rest.length = N := by simpa using hlen
    have hfirst : (runCalls s k (N : Int) W (t0 :: rest)).1 =
        true :: (runCalls (rlUpdate s k ⟨1, t0⟩) k (N : Int) W rest).1 := by
      simp [runCalls, hstep]
    rw [hfirst,
      runCalls_inWindow k (N : Int) W a L t0 hL ht0.1 rest (rlUpdate s k ⟨1, t0⟩) 1 hin' hupd,
      hrestlen]
    obtain ⟨M, rfl⟩ : ∃ M, N = M + 1 := ⟨N - 1, by omega⟩
    rw [List.range_succ, List.map_append, List.map_singleton]
    have hlast : decide ((1 : Int) + (M : Nat) < ((M + 1 : Nat) : Int)) = false := by
      simp only [decide_eq_false_iff_not]
      push_cast
      omega
    have hbody : (List.range M).map (fun i : Nat => decide ((1 : Int) + (i : Int) < ((M + 1 : Nat) : Int))) =
        List.replicate M true := by
      apply List.eq_replicate_iff.mpr
      refine ⟨by simp, ?_⟩
      intro b hb
      obtain ⟨i, hi, rfl⟩ := List.mem_map.mp hb
      have hiM : i < M := List.mem_range.mp hi
      simp only [decide_eq_true_iff]
      push_cast
      omega
    rw [hlast, hbody]
    simp [List.replicate_succ]

theorem c1_exact_window_count_witness :
    (runCalls (fun _ : String × String => none) ("1.2.3.4", "register") ((2 : Nat) : Int) 10
        [0, 3, 5]).1 = List.replicate 2 true ++ [false] :=
  c1_exact_window_count ("1.2.3.4", "register") 2 (by decide) 10 0 5 (by decide)
    [0, 3, 5] (by decide) (by decide) (fun _ => none) rfl

/-- The cooldown used by `CanUserEditNow` (internal/db/canvas.go):
`24 * time.Hour` in seconds. -/
def cooldownSeconds : Int := 86400

/-- `CanUserEditNow` (internal/db/canvas.go).  The `users` table is modelled as
user id to optional row, a row being the nullable `last_edit_at` column.
`none` result models the `QueryRow` error path (no such user).  Otherwise:
null `last_edit_at` means never edited, eligible with no next-edit time;
`nextEdit := lastEditAt + 24h`; eligible iff `time.Now().After(nextEdit)`,
i.e. strictly `nextEdit < now`; else returns `(false, some nextEdit)`. -/
def CanUserEditNow (users : Int → Option (Option Int)) (userID now : Int) :
    Option (Bool × Option Int) :=
  match users userID with
  | none => none
  | some none => some (true, none)
  | some (some lastEditAt) =>
    let nextEdit := lastEditAt + cooldownSeconds
    if nextEdit < now then some (true, none)
    else some (false, some nextEdit)

/-- Users table for the C4 counterexample / witness: user 1 with
`last_edit_at = 1000`. -/
def c4Users : Int → Option (Option Int) :=
  fun uid => if uid = 1 then some (some 1000) else none

/-- C4 counterexample: at the exact instant `now = last_edit_at + 24h`
(last edit 1000, now 87400) the code returns NOT eligible with
`nextEligibleAt = 87400`, because `time.Now().After(nextEdit)` is strict.
The claim asserts eligibility at this exact instant. -/
theorem c4_boundary_counterexample :
    CanUserEditNow c4Users 1 87400 = some (false, some 87400) := by
  rfl

/-- C4 (amended): `CanUserEditNow` is eligible with no `nextEligibleAt` when
`last_edit_at` is null; eligible whenever `now > last_edit_at + 24h` strictly;
and otherwise (including the exact instant `now = last_edit_at + 24h`)
not eligible with `nextEligibleAt = last_edit_at + 24h`. -/
theorem c4_cooldown_eligibility (users : Int → Option (Option Int)) (userID now : Int) :
    (users userID = some none → CanUserEditNow users userID now = some (true, none)) ∧
      (∀ lastEditAt : Int, users userID = some (some lastEditAt) →
        (lastEditAt + 86400 < now → CanUserEditNow users userID now = some (true, none)) ∧
        (now ≤ lastEditAt + 86400 →
          CanUserEditNow users userID now = some (false, some (lastEditAt + 86400)))) := by
  refine ⟨fun h => by simp [CanUserEditNow, h], ?_⟩
  intro lastEditAt h
  constructor
  · intro hlt
    simp [CanUserEditNow, h, cooldownSeconds, hlt]
  · intro hle
    have hnot : ¬ lastEditAt + (86400 : Int) < now := by omega
    simp only [CanUserEditNow, h, cooldownSeconds, if_neg hnot]

theorem c4_cooldown_eligibility_witness :
    CanUserEditNow c4Users 1 87401 = some (true, none) :=
  ((c4_cooldown_eligibility c4Users 1 87401).2 1000 rfl).1 (by decide)

/-- The canvas image cache (internal/api/canvas_handlers.go): the package-level
variables `imageCache []byte` (nil modelled as `none`) and `imageCacheTime`.
Bytes are modelled as `List Nat`. -/
structure ImageCache where
  bytes : Option (List Nat)
  renderedAt : Int
deriving DecidableEq, Repr

/-- `imageCacheTTL = 10 * time.Second`, in seconds. -/
def imageCacheTTL : Int := 10

/-- The cache test at the top of `GetCanvasImage`:
`imageCache != nil && time.Since(imageCacheTime) < imageCacheTTL`
(`time.Since(t)` is `now - t`). -/
def cacheLookup (c : ImageCache) (now : Int) : Option (List Nat) :=
  match c.bytes with
  | some b => if now - c.renderedAt < imageCacheTTL then some b else none
  | none => none

/-- The invalidation performed by `EditPixel` after a successful `SetPixel`:
`imageCache = nil` under the exclusive lock (the timestamp is not touched). -/
def invalidateImageCache (c : ImageCache) : ImageCache :=
  { c with bytes := none }

/-- The `GetCanvasImage` read path (internal/api/canvas_handlers.go), with the
pixel store and renderer abstracted: serve the cached bytes on a hit;
on a miss regenerate from the store, cache the fresh bytes with
`renderedAt = now`, and serve the fresh bytes directly. -/
def GetCanvasImage {S : Type} (render : S → List Nat) (store : S) (c : ImageCache)
    (now : Int) : List Nat × ImageCache :=
  match cacheLookup c now with
  | some b => (b, c)
  | none => (render store, ⟨some (render store), now⟩)

/-- C6: invalidation overrides a live TTL.  For EVERY cache state and EVERY
lookup time (including times less than 10 seconds after `renderedAt`), a lookup
after `invalidate` misses, and `GetCanvasImage` serves bytes freshly rendered
from the store — never the pre-invalidation cached bytes.  In particular, with
an entry rendered at t0, invalidated at t0+1, a get at t0+2 returns the fresh
render, not the cached entry. -/
theorem c6_invalidate_overrides_ttl {S : Type} (render : S → List Nat) (store : S)
    (c : ImageCache) (now : Int) :
    cacheLookup (invalidateImageCache c) now = none ∧
      GetCanvasImage render store (invalidateImageCache c) now =
        (render store, ⟨some (render store), now⟩) := by
  constructor
  · rfl
  · simp [GetCanvasImage, cacheLookup, invalidateImageCache]

/-- A `canvas` table row for one coordinate (schema.sql): the columns
`SetPixel` writes. -/
structure PixelRow where
  color : String
  lastUserId : Int
  updatedAt : Int
deriving DecidableEq, Repr

/-- An `edits` history row (schema.sql), restricted to the columns `SetPixel`
inserts. -/
structure EditRow where
  x : Int
  y : Int
  color : String
  userId : Int
deriving DecidableEq, Repr

/-- A `users` table row restricted to the column `SetPixel` touches. -/
structure UserRow where
  lastEditAt : Option Int
deriving DecidableEq, Repr

/-- The slice of database state touched by `SetPixel`: the `canvas` table
keyed by `(x, y)`, the append-only `edits` table, and the `users` table keyed
by id. -/
structure CanvasState where
  canvas : List ((Int × Int) × PixelRow)
  edits : List EditRow
  users : List (Int × UserRow)
deriving DecidableEq, Repr

/-- The `INSERT ... ON CONFLICT (x, y) DO UPDATE` upsert on `canvas`. -/
def upsertCanvas (rows : List ((Int × Int) × PixelRow)) (key : Int × Int) (row : PixelRow) :
    List ((Int × Int) × PixelRow) :=
  if rows.any (fun r => r.1 = key) then
    rows.map (fun r => if r.1 = key then (key, row) else r)
  else
    rows ++ [(key, row)]

/-- `UPDATE users SET last_edit_at = CURRENT_TIMESTAMP WHERE id = ?`: rows with
a different id are untouched; a missing id updates no rows (not an error). -/
def stampLastEdit (rows : List (Int × UserRow)) (userID now : Int) : List (Int × UserRow) :=
  rows.map (fun r => if r.1 = userID then (r.1, UserRow.mk (some now)) else r)

/-- Which steps of the `SetPixel` transaction succeed: `Begin`, the three
`Exec`s, and `Commit`; abstracts the store's error behaviour. -/
structure TxOracle where
  beginOk : Bool
  upsertOk : Bool
  historyOk : Bool
  stampOk : Bool
  commitOk : Bool
deriving DecidableEq, Repr

/-- `SetPixel` (internal/db/canvas.go): one transaction performing the canvas
upsert, the edit-history insert and the `last_edit_at` stamp, in that order.
A failing step returns its error and the deferred `tx.Rollback()` leaves the
durable state unchanged; only `tx.Commit()` publishes the transaction's state.
Returns (errored, durable state after the call). -/
def SetPixel (st : CanvasState) (x y : Int) (color : String) (userID now : Int)
    (o : TxOracle) : Bool × CanvasState :=
  if !o.beginOk then (true, st)
  else if !o.upsertOk then (true, st)
  else
    let tx1 : CanvasState :=
      { st with canvas := upsertCanvas st.canvas (x, y) ⟨color, userID, now⟩ }
    if !o.historyOk then (true, st)
    else
      let tx2 : CanvasState := { tx1 with edits := tx1.edits ++ [⟨x, y, color, userID⟩] }
      if !o.stampOk then (true, st)
      else
        let tx3 : CanvasState := { tx2 with users := stampLastEdit tx2.users userID now }
        if !o.commitOk then (true, st)
        else (false, tx3)

/-- C5: the gated pixel write is atomic with the cooldown stamp.  Whatever
step of the store fails, an erroring `SetPixel` leaves pixel, history and
`last_edit_at` all unchanged; a successful `SetPixel` applies exactly the
three changes: canvas upsert, history append, and cooldown stamp. -/
theorem c5_setpixel_atomic (st : CanvasState) (x y : Int) (color : String)
    (userID now : Int) (o : TxOracle) :
    ((SetPixel st x y color userID now o).1 = true →
      (SetPixel st x y color userID now o).2 = st) ∧
    ((SetPixel st x y color userID now o).1 = false →
      (SetPixel st x y color userID now o).2 =
        { canvas := upsertCanvas st.canvas (x, y) ⟨color, userID, now⟩,
          edits := st.edits ++ [⟨x, y, color, userID⟩],
          users := stampLastEdit st.users userID now }) := by
  obtain ⟨b1, b2, b3, b4, b5⟩ := o
  cases b1 <;> cases b2 <;> cases b3 <;> cases b4 <;> cases b5 <;>
    simp [SetPixel]

/-- Concrete starting state for the C5 witness: empty canvas and history, one
user (id 7) who has never edited. -/
def c5State : CanvasState :=
  { canvas := [], edits := [], users := [(7, UserRow.mk none)] }

theorem c5_setpixel_atomic_witness :
    (SetPixel c5State 1 2 "#FF0000" 7 100 ⟨true, true, true, true, true⟩).2 =
      { canvas := [((1, 2), ⟨"#FF0000", 7, 100⟩)],
        edits := [⟨1, 2, "#FF0000", 7⟩],
        users := [(7, UserRow.mk (some 100))] } := by
  have h := (c5_setpixel_atomic c5State 1 2 "#FF0000" 7 100
    ⟨true, true, true, true, true⟩).2 rfl
  rw [h]
  rfl

/-- Store failure oracle for one `tryConsume` call: whether the initial
`QueryRow` fails (with an error other than `ErrNoRows`), and whether the
single mutating `Exec` the call may perform (insert, reset or increment)
fails. -/
structure FailOracle where
  queryFails : Bool
  execFails : Bool
deriving DecidableEq, Repr

/-- `CheckIPRateLimit` / `CheckUserRateLimit` with the store's failure
behaviour explicit, mirroring internal/db/ratelimit.go line by line: a failing
lookup is `return false, err`; a failing insert after `ErrNoRows` is
`return true, err` (the literal Go code); the reset and increment `Exec`s are
likewise `return true, err`; the denied branch performs no `Exec` and is
`return false, nil`.  A failed `Exec` leaves the table unchanged.
Result: (allowed, error?, table). -/
def checkRateLimitE {K : Type} [DecidableEq K] (o : FailOracle) (s : K → Option Counter)
    (k : K) (limit windowSeconds now : Int) :
    Bool × Option Unit × (K → Option Counter) :=
  if o.queryFails then (false, some (), s)
  else
    match s k with
    | none =>
      if o.execFails then (true, some (), s)
      else (true, none, rlUpdate s k ⟨1, now⟩)
    | some c =>
      if c.window_start < now - windowSeconds then
        if o.execFails then (true, some (), s) else (true, none, rlUpdate s k ⟨1, now⟩)
      else if limit ≤ c.count then (false, none, s)
      else if o.execFails then (true, some (), s)
      else (true, none, rlUpdate s k ⟨c.count + 1, c.window_start⟩)

/-- C7 counterexample: with an empty table and a store whose insert fails,
the call surfaces the error BUT still reports `allowed = true`, and the
mutation is unpersisted (the row is still absent) — the Go `return true, err`
after the failed `INSERT`.  The claim asserts the call never reports
`allowed = true` with the mutation unpersisted. -/
theorem c7_failed_insert_counterexample :
    (checkRateLimitE ⟨false, true⟩ (fun _ : String × String => none)
        ("1.2.3.4", "register") 5 86400 0).1 = true ∧
      (checkRateLimitE ⟨false, true⟩ (fun _ : String × String => none)
        ("1.2.3.4", "register") 5 86400 0).2.1 = some () ∧
      (checkRateLimitE ⟨false, true⟩ (fun _ : String × String => none)
        ("1.2.3.4", "register") 5 86400 0).2.2 ("1.2.3.4", "register") = none := by
  exact ⟨rfl, rfl, rfl⟩

/-- C7 (amended): every store failure is surfaced as a non-nil error.  A
lookup failure returns `(false, err)` and leaves the table unchanged; when no
failure occurs the call behaves exactly as the pure `checkRateLimit`, so the
mutation is persisted in the same call that returns `allowed = true`; but when
the mutating `Exec` fails the call returns `allowed = true` TOGETHER with the
error and the mutation unpersisted (callers must check the error before
trusting `allowed`); the denied branch performs no `Exec` and cannot fail. -/
theorem c7_error_surfacing {K : Type} [DecidableEq K] (o : FailOracle)
    (s : K → Option Counter) (k : K) (limit windowSeconds now : Int) :
    (o.queryFails = true →
      checkRateLimitE o s k limit windowSeconds now = (false, some (), s)) ∧
    (o.queryFails = false → o.execFails = false →
      checkRateLimitE o s k limit windowSeconds now =
        ((checkRateLimit s k limit windowSeconds now).1, none,
          (checkRateLimit s k limit windowSeconds now).2)) ∧
    (o.queryFails = false → o.execFails = true →
      (checkRateLimitE o s k limit windowSeconds now).2.2 = s ∧
      (s k = none →
        checkRateLimitE o s k limit windowSeconds now = (true, some (), s)) ∧
      (∀ c : Counter, s k = some c → ¬ c.window_start < now - windowSeconds →
        limit ≤ c.count →
        checkRateLimitE o s k limit windowSeconds now = (false, none, s)) ∧
      (∀ c : Counter, s k = some c →
        (c.window_start < now - windowSeconds ∨ ¬ limit ≤ c.count) →
        checkRateLimitE o s k limit windowSeconds now = (true, some (), s))) := by
  refine ⟨fun hq => by simp [checkRateLimitE, hq], ?_, ?_⟩
  · intro hq he
    cases hsk : s k with
    | none => simp [checkRateLimitE, checkRateLimit, hq, he, hsk]
    | some c =>
      by_cases hw : c.window_start < now - windowSeconds
      · simp [checkRateLimitE, checkRateLimit, hq, he, hsk, hw]
      · by_cases hc : limit ≤ c.count <;>
          simp [checkRateLimitE, checkRateLimit, hq, he, hsk, hw, hc]
  · intro hq he
    refine ⟨?_, ?_, ?_, ?_⟩
    · cases hsk : s k with
      | none => simp [checkRateLimitE, hq, he, hsk]
      | some c =>
        by_cases hw : c.window_start < now - windowSeconds
        · simp [checkRateLimitE, hq, he, hsk, hw]
        · by_cases hc : limit ≤ c.count <;>
            simp [checkRateLimitE, hq, he, hsk, hw, hc]
    · intro hsk
      simp [checkRateLimitE, hq, he, hsk]
    · intro c hsk hw hc
      simp [checkRateLimitE, hq, he, hsk, hw, hc]
    · intro c hsk hd
      rcases hd with hw | hc
      · simp [checkRateLimitE, hq, he, hsk, hw]
      · by_cases hw : c.window_start < now - windowSeconds
        · simp [checkRateLimitE, hq, he, hsk, hw]
        · simp [checkRateLimitE, hq, he, hsk, hw, hc]

theorem c7_error_surfacing_witness :
    checkRateLimitE ⟨false, false⟩ (fun _ : String × String => none)
        ("1.2.3.4", "register") 5 86400 0 =
      ((checkRateLimit (fun _ : String × String => none) ("1.2.3.4", "register") 5 86400 0).1,
        none,
        (checkRateLimit (fun _ : String × String => none)
          ("1.2.3.4", "register") 5 86400 0).2) :=
  (c7_error_surfacing ⟨false, false⟩ (fun _ => none)
    ("1.2.3.4", "register") 5 86400 0).2.1 rfl rfl

/-- The read phase of a `tryConsume` call: the initial `QueryRow` capturing
the counter row (or `ErrNoRows`) — the SELECT is a separate statement from
the later UPDATE/INSERT, with no surrounding transaction. -/
def rlRead {K : Type} (s : K → Option Counter) (k : K) : Option Counter := s k

/-- The write phase of a `tryConsume` call, executed against the CURRENT table
`s` but deciding from the values `r` captured by that call's earlier read
phase.  An `INSERT` when the row meanwhile exists violates the primary key
(SQLite error; the Go code is `return true, err`); the increment
`UPDATE ... SET count = count + 1` is relative to the row's value AT UPDATE
TIME, not the value read; an `UPDATE` whose row vanished affects no rows.
Result: (allowed, error?, table). -/
def rlWrite {K : Type} [DecidableEq K] (s : K → Option Counter) (k : K)
    (limit windowSeconds now : Int) (r : Option Counter) :
    Bool × Option Unit × (K → Option Counter) :=
  match r with
  | none =>
    match s k with
    | none => (true, none, rlUpdate s k ⟨1, now⟩)
    | some _ => (true, some (), s)
  | some c =>
    if c.window_start < now - windowSeconds then
      (true, none, rlUpdate s k ⟨1, now⟩)
    else if limit ≤ c.count then (false, none, s)
    else
      match s k with
      | some cur => (true, none, rlUpdate s k ⟨cur.count + 1, cur.window_start⟩)
      | none => (true, none, s)

/-- Sequential coherence of the phase split: a read phase immediately followed
by its own write phase (no interleaving) is exactly `checkRateLimit`. -/
theorem rlWrite_after_rlRead {K : Type} [DecidableEq K] (s : K → Option Counter) (k : K)
    (limit windowSeconds now : Int) :
    rlWrite s k limit windowSeconds now (rlRead s k) =
      ((checkRateLimit s k limit windowSeconds now).1, none,
        (checkRateLimit s k limit windowSeconds now).2) := by
  cases hsk : s k with
  | none => simp [rlRead, rlWrite, checkRateLimit, hsk]
  | some c =>
    by_cases hw : c.window_start < now - windowSeconds
    · simp [rlRead, rlWrite, checkRateLimit, hsk, hw]
    · by_cases hc : limit ≤ c.count <;>
        simp [rlRead, rlWrite, checkRateLimit, hsk, hw, hc]

/-- Key and table for the C3 race: the counter for user 9, action
`post_message`, at `(count = 1, window_start = 0)` with `limit = 2`. -/
def c3Key : Int × String := (9, "post_message")

def c3Table : Int × String → Option Counter :=
  fun q => if q = c3Key then some ⟨1, 0⟩ else none

/-- C3: the lost-update race.  Two concurrent `tryConsume` calls (limit 2,
window 10, times 5 and 6) that both execute their SELECT before either
executes its UPDATE: both capture `(count = 1, window_start = 0)`, both pass
`count < limit`, and both increments succeed — both calls return
`allowed = true` and the stored count reaches 3 > limit.  The claim (and spec
section 5) require at most `limit` successes; the code's SELECT-then-UPDATE
without a transaction admits this schedule. -/
theorem c3_lost_update_race :
    (rlWrite c3Table c3Key 2 10 5 (rlRead c3Table c3Key)).1 = true ∧
      (rlWrite ((rlWrite c3Table c3Key 2 10 5 (rlRead c3Table c3Key)).2.2)
          c3Key 2 10 6 (rlRead c3Table c3Key)).1 = true ∧
      (rlWrite ((rlWrite c3Table c3Key 2 10 5 (rlRead c3Table c3Key)).2.2)
          c3Key 2 10 6 (rlRead c3Table c3Key)).2.2 c3Key = some ⟨3, 0⟩ := by
  refine ⟨rfl, rfl, ?_⟩
  rfl

/-- `RateLimitConfig` (internal/api, rate-limit configuration). -/
structure RateLimitConfig where
  pixelEditsPerDay : Int
  pageUpdatesPerDay : Int
  channelCreatesPerDay : Int
  mailSendsPerDay : Int
  registrationsPerDay : Int
deriving DecidableEq, Repr

/-- `DefaultRateLimits` (internal/api): the normal limits. -/
def DefaultRateLimits : RateLimitConfig :=
  { pixelEditsPerDay := 1, pageUpdatesPerDay := 10, channelCreatesPerDay := 3,
    mailSendsPerDay := 20, registrationsPerDay := 5 }

/-- The number of event rows for one user with `created_at > now - window`:
the shape of `CountUserPageUpdatesToday`, `CountUserChannelsToday`,
`CountUserMessagesLastHour` and `CountMailSentToday`
(`created_at > datetime(now, -1 day)` resp. `-1 hour`).  A user's event table
is modelled as the list of its rows' timestamps. -/
def countEventsSince (events : List Int) (now window : Int) : Int :=
  ((events.filter (fun t => now - window < t)).length : Int)

/-- A sliding-window count gate: deny when the recent-event count has reached
`limit`; otherwise proceed and record the new event at `now`. -/
def slidingGate (limit window : Int) (events : List Int) (now : Int) : Bool × List Int :=
  if limit ≤ countEventsSince events now window then (false, events)
  else (true, events ++ [now])

/-- The `UpdatePage` rate-limit gate (internal/api/page_handlers.go):
`CountUserPageUpdatesToday`, deny at `limits.PageUpdatesPerDay`, and on
success `RecordPageUpdate` appends a `page_updates` row. -/
def updatePageGate (events : List Int) (now : Int) : Bool × List Int :=
  if DefaultRateLimits.pageUpdatesPerDay ≤ countEventsSince events now 86400 then
    (false, events)
  else (true, events ++ [now])

/-- The `CreateChannel` rate-limit gate (internal/api/page_handlers.go):
`CountUserChannelsToday`, deny at the hardcoded 3, the created channel row
itself being the recorded event. -/
def createChannelGate (events : List Int) (now : Int) : Bool × List Int :=
  if (3 : Int) ≤ countEventsSince events now 86400 then (false, events)
  else (true, events ++ [now])

/-- The `PostMessage` rate-limit gate (internal/api/page_handlers.go):
`CountUserMessagesLastHour`, deny at the hardcoded 10, the inserted message
row itself being the recorded event. -/
def postMessageGate (events : List Int) (now : Int) : Bool × List Int :=
  if (10 : Int) ≤ countEventsSince events now 3600 then (false, events)
  else (true, events ++ [now])

/-- The `SendMail` rate-limit gate (internal/api): `CountMailSentToday`, deny
at `limits.MailSendsPerDay`, and on success `RecordMailSend` appends a
`mail_sends` row. -/
def sendMailGate (events : List Int) (now : Int) : Bool × List Int :=
  if DefaultRateLimits.mailSendsPerDay ≤ countEventsSince events now 86400 then
    (false, events)
  else (true, events ++ [now])

/-- The `Register` rate-limit gate (internal/api/handlers.go):
`CheckIPRateLimit(ip, "register", limits.RegistrationsPerDay, 86400)`. -/
def registerGate (s : String × String → Option Counter) (ip : String) (now : Int) :
    Bool × (String × String → Option Counter) :=
  CheckIPRateLimit s ip "register" DefaultRateLimits.registrationsPerDay 86400 now

/-- A sequence of sequential page updates through the code's gate. -/
def runPageUpdates (events : List Int) : List Int → List Bool × List Int
  | [] => ([], events)
  | t :: ts =>
    let r := updatePageGate events t
    let rest := runPageUpdates r.2 ts
    (r.1 :: rest.1, rest.2)

/-- Call times separating the code's sliding-count page-update gate from the
counter-row `tryConsume` mechanism with the same limit (10) and window
(1 day). -/
def c8Times : List Int :=
  [0, 50000, 50001, 50002, 50003, 50004, 50005, 50006, 50007, 50008, 86401, 86402]

/-- C8 counterexample: on the call times `c8Times`, the page-update flow as
coded (sliding `COUNT(*)` over `page_updates`) DENIES the 12th call, while the
counter-row `tryConsume` mechanism (limit 10, window 86400) ALLOWS it (the
counter hard-resets at t = 86401).  The page-update flow therefore does not
consult the tryConsume mechanism the claim describes. -/
theorem c8_page_update_not_tryconsume :
    (runPageUpdates [] c8Times).1.getLast? = some false ∧
      (runCalls (fun _ : Int × String => none) (9, "update_page") 10 86400 c8Times).1.getLast? =
        some true := by
  constructor
  · rfl
  · rfl

/-- C8 (amended): only registration consults the counter-row `tryConsume`
mechanism (`CheckIPRateLimit`, 5/day per IP, window 86400 s).  Channel
creation, message posting, mail sending and page update each consult a
per-user sliding-window `COUNT(*)` over a dedicated event table before
performing the side effect, with limits 3/day, 10/hour, 20/day and 10/day
respectively. -/
theorem c8_five_flow_gates (s : String × String → Option Counter) (ip : String)
    (events : List Int) (now : Int) :
    registerGate s ip now = checkRateLimit s (ip, "register") 5 86400 now ∧
      updatePageGate events now = slidingGate 10 86400 events now ∧
      createChannelGate events now = slidingGate 3 86400 events now ∧
      postMessageGate events now = slidingGate 10 3600 events now ∧
      sendMailGate events now = slidingGate 20 86400 events now := by
  exact ⟨rfl, rfl, rfl, rfl, rfl⟩

/-- `models.CanvasSize = 1024`. -/
def CanvasSize : Int := 1024

/-- Value of one hexadecimal digit, case-insensitive. -/
def hexDigitVal (c : Char) : Option Nat :=
  if '0' ≤ c ∧ c ≤ '9' then some (c.toNat - '0'.toNat)
  else if 'a' ≤ c ∧ c ≤ 'f' then some (c.toNat - 'a'.toNat + 10)
  else if 'A' ≤ c ∧ c ≤ 'F' then some (c.toNat - 'A'.toNat + 10)
  else none

/-- Modelled from the Go standard library: one `%02x` item of
`fmt.Sscanf(hex, "%02x%02x%02x")`.  Every scanning verb except `%c` first
discards leading blanks from the remaining input; width 2 is a MAXIMUM, so the
item then reads one or two hexadecimal digits (at least one required).
Returns the item's value and the unconsumed input. -/
def scanHex2 (cs0 : List Char) : Option (Nat × List Char) :=
  let cs := cs0.dropWhile (fun c => c = ' ' ∨ c = '\t')
  match cs with
  | [] => none
  | c :: rest =>
    match hexDigitVal c with
    | none => none
    | some d1 =>
      match rest with
      | [] => some (d1, [])
      | c2 :: rest2 =>
        match hexDigitVal c2 with
        | none => some (d1, c2 :: rest2)
        | some d2 => some (16 * d1 + d2, rest2)

/-- `HexToColor` (internal/canvas/render.go): strip one leading `#`; require
exactly 6 remaining characters; `fmt.Sscanf(hex, "%02x%02x%02x")` into r, g, b
(alpha fixed at 255, omitted here).  Note the scanner is laxer than the
function's own doc comment (`#RRGGBB` or `RRGGBB`): blanks inside the six
characters are skipped by the verbs and one-digit items are accepted. -/
def HexToColor (hex : String) : Option (Nat × Nat × Nat) :=
  let cs := hex.data
  let cs := match cs with
    | '#' :: rest => rest
    | other => other
  if cs.length ≠ 6 then none
  else
    match scanHex2 cs with
    | none => none
    | some (r, cs1) =>
      match scanHex2 cs1 with
      | none => none
      | some (g, cs2) =>
        match scanHex2 cs2 with
        | none => none
        | some (b, _) => some (r, g, b)

/-- The background colour: `color.RGBA{255, 255, 255, 255}`. -/
def white : Nat × Nat × Nat := (255, 255, 255)

/-- `img.Set` on the RGBA canvas image: Go's `image.RGBA.Set` is a no-op for
a point outside the image rectangle, so out-of-canvas coordinates are
ignored. -/
def imgSet (g : Int × Int → Nat × Nat × Nat) (x y : Int) (c : Nat × Nat × Nat) :
    Int × Int → Nat × Nat × Nat :=
  if 0 ≤ x ∧ x < CanvasSize ∧ 0 ≤ y ∧ y < CanvasSize then
    fun q => if q = (x, y) then c else g q
  else g

/-- One iteration of the pixel loop in `Render` (internal/canvas/render.go):
an entry whose colour fails `HexToColor` is skipped (`continue`); otherwise
`img.Set` applies it. -/
def applyPixel (g : Int × Int → Nat × Nat × Nat) (e : (Int × Int) × String) :
    Int × Int → Nat × Nat × Nat :=
  match HexToColor e.2 with
  | none => g
  | some c => imgSet g e.1.1 e.1.2 c

/-- The image built by `Render` before PNG encoding: the all-white
1024 x 1024 canvas with each stored pixel applied in turn. -/
def renderPixels (pixels : List ((Int × Int) × String)) : Int × Int → Nat × Nat × Nat :=
  pixels.foldl applyPixel (fun _ => white)

/-- `Render` (internal/canvas/render.go): builds the image and returns
`png.Encode(w, img)`, which fails only with the output writer (here the
`writerFails` flag); the pixel data never contributes an error. -/
def Render (pixels : List ((Int × Int) × String)) (writerFails : Bool) :
    Option (Int × Int → Nat × Nat × Nat) :=
  if writerFails then none else some (renderPixels pixels)

/-- C10 counterexample: the colour string `" 12345"` (a blank and five hex
digits) is NOT a valid 6-hex-digit colour, yet `HexToColor` accepts it — the
first `%02x` skips the blank and reads `12`, the second reads `34`, the third
reads the single digit `5` — so the entry is not skipped and the pixel does
not stay white: the canvas at (0, 0) becomes RGB(18, 52, 5).  (Such a value
can be stored: `EditPixel` validates colours with `ValidateColor`, which is
this same parse.) -/
theorem c10_lax_hex_counterexample :
    HexToColor " 12345" = some (18, 52, 5) ∧
      renderPixels [((0, 0), " 12345")] (0, 0) = (18, 52, 5) ∧
      renderPixels [((0, 0), " 12345")] (0, 0) ≠ white := by
  refine ⟨rfl, rfl, ?_⟩
  decide

/-- C10 (amended): rendering is total over stored pixel data — `Render`
errors exactly when PNG encoding to the output writer fails; an entry whose
colour string fails the `HexToColor` parse (strip one `#`; exactly six
characters; three blank-tolerant one-or-two-digit hex items) is silently
skipped, leaving the image unchanged; and `img.Set` ignores out-of-canvas
coordinates.  No stored pixel value can make rendering the canvas fail. -/
theorem c10_render_total (pixels : List ((Int × Int) × String)) (writerFails : Bool)
    (g : Int × Int → Nat × Nat × Nat) (e : (Int × Int) × String) (c : Nat × Nat × Nat) :
    (Render pixels writerFails = none ↔ writerFails = true) ∧
      (HexToColor e.2 = none → applyPixel g e = g) ∧
      (¬ (0 ≤ e.1.1 ∧ e.1.1 < CanvasSize ∧ 0 ≤ e.1.2 ∧ e.1.2 < CanvasSize) →
        imgSet g e.1.1 e.1.2 c = g) := by
  refine ⟨?_, ?_, ?_⟩
  · cases writerFails <;> simp [Render]
  · intro h
    simp [applyPixel, h]
  · intro h
    simp [imgSet, h]

theorem c10_render_total_witness :
    (Render [((0, 0), "zzzzzz")] false = none ↔ false = true) ∧
      applyPixel (fun _ => white) ((0, 0), "zzzzzz") = (fun _ => white) ∧
      imgSet (fun _ => white) 2000 0 (0, 0, 0) = (fun _ => white) := by
  have h := c10_render_total [((0, 0), "zzzzzz")] false (fun _ => white)
    ((0, 0), "zzzzzz") (0, 0, 0)
  exact ⟨h.1, h.2.1 (by decide), by
    have h2 := c10_render_total [((0, 0), "zzzzzz")] false (fun _ => white)
      ((2000, 0), "zzzzzz") (0, 0, 0)
    exact h2.2.2 (by decide)⟩
